import Mathlib

/-!
Verification of the levocale menu/navigation core (src/main.rs) against its
specification.  The Rust `AppState` and its methods are shallowly embedded:
`usize` becomes `Nat` (Rust `saturating_sub` is `Nat` truncated subtraction),
`Vec<MenuItem>` becomes `List MenuItem`, closures stored in menu items become
an `Action` tag interpreted by an oracle, and the external command wrappers
are parameters (the raw `localectl list-locales` output lines, the refreshed
status strings, and the oracle giving each action's result).
-/

namespace Levocale

/-- The action bound to a menu entry (src/main.rs:65, 76, 87, 98): headers
carry the no-op closure, keyboard leaves call `switch_to_keyboard_layout`,
locale leaves call `set_locale`. -/
inductive Action where
  | nop : Action
  | switch_to_keyboard_layout : String → Action
  | set_locale : String → Action
deriving DecidableEq

/-- One menu row (src/main.rs:19-23). -/
structure MenuItem where
  label : String
  description : String
  action : Action
deriving DecidableEq

instance : Inhabited MenuItem := ⟨⟨"", "", Action.nop⟩⟩

/-- The application state (src/main.rs:25-33). -/
structure AppState where
  menu_items : List MenuItem
  selected : Nat
  scroll_offset : Nat
  keyboard_section_expanded : Bool
  locale_section_expanded : Bool
  current_layout : String
  current_locale : String
deriving DecidableEq

/-- Shared body of `adjust_scroll` (src/main.rs:122-136) and
`adjust_scroll_for_height` (src/main.rs:138-153): keep the selected item
inside the window, then clamp to `max_scroll`.  `usize::saturating_sub`
is `Nat` subtraction. -/
def clampScroll (visible_items len selected scroll0 : Nat) : Nat :=
  min
    (if selected < scroll0 then selected
     else if scroll0 + visible_items ≤ selected then selected - (visible_items - 1)
     else scroll0)
    (len - visible_items)

/-- src/main.rs:122-136, with the hard-coded conservative estimate
`visible_items = 10`. -/
def adjust_scroll (st : AppState) : AppState :=
  { st with scroll_offset := clampScroll 10 st.menu_items.length st.selected st.scroll_offset }

/-- src/main.rs:138-153 (the spec's `reclamp`). -/
def adjust_scroll_for_height (visible_items : Nat) (st : AppState) : AppState :=
  if visible_items = 0 then st
  else
    { st with scroll_offset := clampScroll visible_items st.menu_items.length st.selected st.scroll_offset }

/-- src/main.rs:104-111. -/
def move_up (st : AppState) : AppState :=
  adjust_scroll
    (if st.selected > 0 then { st with selected := st.selected - 1 }
     else { st with selected := st.menu_items.length - 1 })

/-- src/main.rs:113-120. -/
def move_down (st : AppState) : AppState :=
  adjust_scroll
    (if st.selected < st.menu_items.length - 1 then { st with selected := st.selected + 1 }
     else { st with selected := 0 })

/-- A throwaway menu row used to build concrete states in counterexamples
and witnesses. -/
def anItem : MenuItem := ⟨"x", "", Action.nop⟩

/-- Modelled from the spec's words (§3 navigation-cursor invariant), for
comparison with the code: the minimal scroll value such that
`selected < scroll + visible_items`, subject to not exceeding
`len - visible_items` (floored at 0). -/
def specMinimalScroll (visible_items len selected : Nat) : Nat :=
  min (selected + 1 - visible_items) (len - visible_items)

/-- Does the character list start with the given pattern?  Models Rust
`str::starts_with` on the character sequence. -/
def listStartsWith : List Char → List Char → Bool
  | _, [] => true
  | [], _ :: _ => false
  | c :: cs, p :: ps => c == p && listStartsWith cs ps

/-- Does the pattern occur as a contiguous substring of the character list?
Models Rust `str::contains` on the character sequence. -/
def listContains : List Char → List Char → Bool
  | [], p => p.isEmpty
  | c :: cs, p => listStartsWith (c :: cs) p || listContains cs p

/-- Rust `str::contains(pat)` (substring search). -/
def strContains (s pat : String) : Bool := listContains s.data pat.data

/-- Rust `str::starts_with(pat)`. -/
def strStartsWith (s pat : String) : Bool := listStartsWith s.data pat.data

/-- Rust `str::split_once(ch)`: the parts before and after the first
occurrence of `ch`, or `none` when `ch` does not occur. -/
def splitOnceList (ch : Char) : List Char → Option (List Char × List Char)
  | [] => none
  | c :: cs =>
    if c == ch then some ([], cs)
    else match splitOnceList ch cs with
      | some (a, b) => some (c :: a, b)
      | none => none

/-- Rust `locale_code.split('.').next()`: the prefix of the string before
the first `'.'` (the whole string when there is no `'.'`).  It is never
`None`, so the dead `else` arm at src/main.rs:317-319 is dropped. -/
def langCountryOf (locale_code : String) : List Char :=
  locale_code.data.takeWhile (fun c => c != '.')

/-- src/main.rs:277-322: the static language → keyboard-layout table.
Rust `match lang` on string literals is the equality chain below; the arm
for codes without a `'_'` separator (including the bare "C" locale,
src/main.rs:310-316) returns `none` either way. -/
def locale_to_keyboard_layout (locale_code : String) : Option String :=
  match splitOnceList '_' (langCountryOf locale_code) with
  | some (langL, countryL) =>
    let lang : String := ⟨langL⟩
    let country : String := ⟨countryL⟩
    if lang = "en" then some "us"
    else if lang = "da" then some "dk"
    else if lang = "de" then some "de"
    else if lang = "es" then some "es"
    else if lang = "fr" then some "fr"
    else if lang = "zh" then some "cn"
    else if lang = "ja" then some "jp"
    else if lang = "ko" then some "kr"
    else if lang = "ru" then some "ru"
    else if lang = "it" then some "it"
    else if lang = "pt" then some (if country = "BR" then "br" else "pt")
    else if lang = "nl" then some "nl"
    else if lang = "sv" then some "se"
    else if lang = "no" then some "no"
    else if lang = "fi" then some "fi"
    else if lang = "pl" then some "pl"
    else if lang = "cs" then some "cz"
    else if lang = "hu" then some "hu"
    else if lang = "tr" then some "tr"
    else if lang = "ar" then some "ara"
    else if lang = "hi" then some "in"
    else if lang = "th" then some "th"
    else if lang = "vi" then some "vn"
    else none
  | none => none

/-- The languages that have an entry in the static table of
`locale_to_keyboard_layout`. -/
def tableLangs : List String :=
  ["en", "da", "de", "es", "fr", "zh", "ja", "ko", "ru", "it", "pt", "nl",
   "sv", "no", "fi", "pl", "cs", "hu", "tr", "ar", "hi", "th", "vi"]

/-- Uppercase a string character by character.  Models Rust
`str::to_uppercase`; like Lean's `Char.toUpper`, Unicode uppercasing never
produces a lowercase ASCII letter, which is the only property the proofs
use. -/
def upperStr (s : String) : String := ⟨s.data.map Char.toUpper⟩

/-- src/main.rs:388-432. -/
def locale_code_to_display_name (locale_code : String) : String :=
  if locale_code = "C" ∨ locale_code = "C.UTF-8" then "C (POSIX)"
  else if strStartsWith locale_code "en_US" then "English (US)"
  else if strStartsWith locale_code "en_GB" then "English (UK)"
  else if strStartsWith locale_code "da_DK" then "Danish (Denmark)"
  else if strStartsWith locale_code "de_DE" then "German (Germany)"
  else if strStartsWith locale_code "es_US" then "Spanish (US)"
  else if strStartsWith locale_code "es_ES" then "Spanish (Spain)"
  else if strStartsWith locale_code "fr_FR" then "French (France)"
  else if strStartsWith locale_code "zh_CN" then "Chinese (Simplified)"
  else if strStartsWith locale_code "zh_TW" then "Chinese (Traditional)"
  else if strStartsWith locale_code "ja_JP" then "Japanese (Japan)"
  else if strStartsWith locale_code "ko_KR" then "Korean (Korea)"
  else if strStartsWith locale_code "ru_RU" then "Russian (Russia)"
  else if strStartsWith locale_code "it_IT" then "Italian (Italy)"
  else if strStartsWith locale_code "pt_BR" then "Portuguese (Brazil)"
  else if strStartsWith locale_code "pt_PT" then "Portuguese (Portugal)"
  else if strStartsWith locale_code "nl_NL" then "Dutch (Netherlands)"
  else if strStartsWith locale_code "sv_SE" then "Swedish (Sweden)"
  else if strStartsWith locale_code "no_NO" then "Norwegian (Norway)"
  else if strStartsWith locale_code "fi_FI" then "Finnish (Finland)"
  else if strStartsWith locale_code "pl_PL" then "Polish (Poland)"
  else if strStartsWith locale_code "cs_CZ" then "Czech (Czech Republic)"
  else if strStartsWith locale_code "hu_HU" then "Hungarian (Hungary)"
  else if strStartsWith locale_code "tr_TR" then "Turkish (Turkey)"
  else if strStartsWith locale_code "ar_SA" then "Arabic (Saudi Arabia)"
  else if strStartsWith locale_code "hi_IN" then "Hindi (India)"
  else if strStartsWith locale_code "th_TH" then "Thai (Thailand)"
  else if strStartsWith locale_code "vi_VN" then "Vietnamese (Vietnam)"
  else
    match splitOnceList '_' (langCountryOf locale_code) with
    | some (langL, countryL) => upperStr ⟨langL⟩ ++ " (" ++ upperStr ⟨countryL⟩ ++ ")"
    | none => upperStr ⟨langCountryOf locale_code⟩

/-- Whitespace as stripped by Rust `str::trim` (the ASCII cases; Unicode
whitespace beyond these does not occur in `localectl` output). -/
def isWhitespaceChar (c : Char) : Bool :=
  c == ' ' || c == '\t' || c == '\n' || c == '\r'

/-- Rust `str::trim`: strip whitespace from both ends. -/
def strTrim (s : String) : String :=
  ⟨(((s.data.dropWhile isWhitespaceChar).reverse).dropWhile isWhitespaceChar).reverse⟩

/-- src/main.rs:364-386.  The external `localectl list-locales` output is
modelled by its list of output lines; each line is trimmed, empty lines
are dropped, and each surviving code is paired with its display name.
When nothing survives, the fixed two-entry fallback is returned. -/
def get_available_locales (lines : List String) : List (String × String) :=
  let locales := (lines.map strTrim).filterMap fun l =>
    if l = "" then none else some (l, locale_code_to_display_name l)
  if locales = [] then
    [("en_US.UTF-8", "English (US)"), ("C.UTF-8", "C (POSIX)")]
  else locales

/-- Tail of Rust `Vec::dedup_by(|a, b| a.0 == b.0)` (src/main.rs:336):
drop each element whose key equals the key of the last kept element. -/
def dedupByFirstAux (prev : String) : List (String × String) → List (String × String)
  | [] => []
  | p :: rest =>
    if p.1 = prev then dedupByFirstAux prev rest
    else p :: dedupByFirstAux p.1 rest

/-- Rust `Vec::dedup_by(|a, b| a.0 == b.0)` (src/main.rs:336). -/
def dedupByFirst : List (String × String) → List (String × String)
  | [] => []
  | p :: rest => p :: dedupByFirstAux p.1 rest

/-- Insert a pair into a list sorted by first component, before the first
element whose key is not smaller — i.e. stably. -/
def insertByKey (x : String × String) : List (String × String) → List (String × String)
  | [] => [x]
  | y :: ys => if y.1 < x.1 then y :: insertByKey x ys else x :: y :: ys

/-- Stable insertion sort by first component.  Rust's
`sort_by(|a, b| a.0.cmp(&b.0))` (src/main.rs:335) is a stable sort by the
same key, and a stable sort's output is uniquely determined by the
comparator and the input order, so the choice of algorithm is immaterial. -/
def sortByKey : List (String × String) → List (String × String)
  | [] => []
  | x :: xs => insertByKey x (sortByKey xs)

/-- src/main.rs:324-339: map every available locale through the static
table, keep the hits, sort by layout code and drop duplicate codes. -/
def get_available_keyboard_layouts (lines : List String) : List (String × String) :=
  let layouts := (get_available_locales lines).filterMap fun lc =>
    (locale_to_keyboard_layout lc.1).map fun code => (code, lc.2)
  dedupByFirst (sortByKey layouts)

/-- The keyboard-section header entry (src/main.rs:61-66). -/
def kbHeaderItem (st : AppState) : MenuItem :=
  ⟨(if st.keyboard_section_expanded then "▼" else "▶") ++ " Keyboard Layouts",
   "Current: " ++ st.current_layout, Action.nop⟩

/-- One keyboard-layout leaf per available layout (src/main.rs:69-78). -/
def kbLeafItems (available_keyboard_layouts : List (String × String)) (st : AppState) :
    List MenuItem :=
  available_keyboard_layouts.map fun lc =>
    ⟨(if lc.1 = st.current_layout then "● " else "  ") ++ lc.2,
     "Layout: " ++ lc.1, Action.switch_to_keyboard_layout lc.1⟩

/-- The locale-section header entry (src/main.rs:83-88). -/
def locHeaderItem (st : AppState) : MenuItem :=
  ⟨(if st.locale_section_expanded then "▼" else "▶") ++ " System Locales",
   "Current: " ++ st.current_locale, Action.nop⟩

/-- One locale leaf per available locale (src/main.rs:91-100). -/
def locLeafItems (available_locales : List (String × String)) (st : AppState) :
    List MenuItem :=
  available_locales.map fun lc =>
    ⟨(if lc.1 = st.current_locale then "● " else "  ") ++ lc.2,
     lc.1, Action.set_locale lc.1⟩

/-- src/main.rs:53-102 with the two fetched item lists as arguments (they
are bound at src/main.rs:56-57): the keyboard section (header plus, when
expanded, one leaf per layout) is emitted only when there is at least one
layout; the locale section (header plus, when expanded, one leaf per
locale) is emitted unconditionally. -/
def build_menu_core (available_keyboard_layouts available_locales : List (String × String))
    (st : AppState) : List MenuItem :=
  (if available_keyboard_layouts.isEmpty then []
   else
     kbHeaderItem st ::
       (if st.keyboard_section_expanded then kbLeafItems available_keyboard_layouts st else []))
  ++
  (locHeaderItem st ::
    (if st.locale_section_expanded then locLeafItems available_locales st else []))

/-- src/main.rs:53-102: `build_menu` fetches both item lists and fills
`menu_items`. -/
def build_menu (lines : List String) (st : AppState) : List MenuItem :=
  build_menu_core (get_available_keyboard_layouts lines) (get_available_locales lines) st

/-- src/main.rs:48-51: the two current-value queries are external; their
results are passed in. -/
def refresh_status (layoutNow localeNow : String) (st : AppState) : AppState :=
  { st with current_layout := layoutNow, current_locale := localeNow }

def toggle_section (lines : List String) (st : AppState) : AppState :=
  if st.menu_items.isEmpty then st
  else
    let item := st.menu_items.getD st.selected default
    if strContains item.label "Keyboard Layouts" then
      let st1 := { st with keyboard_section_expanded := ! st.keyboard_section_expanded }
      let st2 := { st1 with menu_items := build_menu lines st1 }
      let st3 :=
        match st2.menu_items.findIdx? (fun m => strContains m.label "Keyboard Layouts") with
        | some i => { st2 with selected := i }
        | none => st2
      adjust_scroll st3
    else if strContains item.label "System Locales" then
      let st1 := { st with locale_section_expanded := ! st.locale_section_expanded }
      let st2 := { st1 with menu_items := build_menu lines st1 }
      let st3 :=
        match st2.menu_items.findIdx? (fun m => strContains m.label "System Locales") with
        | some i => { st2 with selected := i }
        | none => st2
      adjust_scroll st3
    else adjust_scroll st

/-- src/main.rs:186-207.  The bound actions shell out to external commands;
`oracle` supplies each action's result, and the refreshed status strings
are passed in.  Rust's `Result<bool>` is `Except String Bool`. -/
def execute_selected (oracle : Action → Except String Unit) (lines : List String)
    (layoutNow localeNow : String) (st : AppState) : AppState × Except String Bool :=
  if st.menu_items.isEmpty then (st, Except.ok false)
  else
    let item := st.menu_items.getD st.selected default
    if strContains item.label "Keyboard Layouts" || strContains item.label "System Locales" then
      (toggle_section lines st, Except.ok false)
    else
      let result := oracle item.action
      let st1 := refresh_status layoutNow localeNow st
      let st2 := { st1 with menu_items := build_menu lines st1 }
      (st2, result.map fun _ => false)

/-- A display name is safe when a leaf label built from it (marker prefix
plus the name) contains neither group-header marker substring. -/
def safeName (n : String) : Prop :=
  strContains ("● " ++ n) "Keyboard Layouts" = false ∧
    strContains ("  " ++ n) "Keyboard Layouts" = false ∧
    strContains ("● " ++ n) "System Locales" = false ∧
    strContains ("  " ++ n) "System Locales" = false

instance safeName_decidable (n : String) : Decidable (safeName n) := by
  unfold safeName
  infer_instance

/-- A concrete four-entry menu (both sections expanded, one locale): the
System Locales header sits at index 2. -/
def c5Menu : List MenuItem :=
  [⟨"▼ Keyboard Layouts", "Current: ", Action.nop⟩,
   ⟨"  English (US)", "Layout: us", Action.switch_to_keyboard_layout "us"⟩,
   ⟨"▼ System Locales", "Current: ", Action.nop⟩,
   ⟨"  English (US)", "en_US.UTF-8", Action.set_locale "en_US.UTF-8"⟩]

lemma adjust_scroll_selected (st : AppState) : (adjust_scroll st).selected = st.selected := rfl

lemma adjust_scroll_menu (st : AppState) :
    (adjust_scroll st).menu_items = st.menu_items := rfl

lemma adjust_scroll_for_height_selected (v : Nat) (st : AppState) :
    (adjust_scroll_for_height v st).selected = st.selected := by
  unfold adjust_scroll_for_height; split <;> rfl

lemma adjust_scroll_for_height_menu (v : Nat) (st : AppState) :
    (adjust_scroll_for_height v st).menu_items = st.menu_items := by
  unfold adjust_scroll_for_height; split <;> rfl

lemma clampScroll_bounds (v len selected s0 : Nat) (hv : v ≠ 0) (hsel : selected < len) :
    clampScroll v len selected s0 ≤ selected ∧
      selected < clampScroll v len selected s0 + v ∧
      clampScroll v len selected s0 ≤ len - v := by
  unfold clampScroll
  rcases Nat.lt_or_ge selected s0 with h1 | h1
  · rw [if_pos h1, Nat.min_def]
    split <;> omega
  · rw [if_neg (Nat.not_lt.mpr h1)]
    rcases Nat.lt_or_ge selected (s0 + v) with h2 | h2
    · rw [if_neg (by omega), Nat.min_def]
      split <;> omega
    · rw [if_pos (by omega), Nat.min_def]
      split <;> omega

/-- C1 (original statement is refuted by `c1_counterexample`; this is the
amended form): for `visible_items ≥ 1` and a cursor that is in range for the
entry list, `adjust_scroll_for_height` leaves `selected` unchanged and
afterwards `selected` lies in the half-open visible window
`[scroll_offset, scroll_offset + visible_items)`. -/
theorem c1_reclamp_keeps_selected_visible (v : Nat) (st : AppState)
    (hv : 1 ≤ v) (hsel : st.selected < st.menu_items.length) :
    (adjust_scroll_for_height v st).selected = st.selected ∧
      (adjust_scroll_for_height v st).scroll_offset ≤ st.selected ∧
      st.selected < (adjust_scroll_for_height v st).scroll_offset + v := by
  have hv0 : v ≠ 0 := by omega
  refine ⟨adjust_scroll_for_height_selected v st, ?_, ?_⟩ <;>
    · unfold adjust_scroll_for_height
      rw [if_neg hv0]
      have := clampScroll_bounds v st.menu_items.length st.selected st.scroll_offset hv0 hsel
      simp only
      omega

/-- Witness for C1's amended theorem at a concrete in-range state. -/
theorem c1_witness :
    (adjust_scroll_for_height 2 ⟨[anItem, anItem, anItem], 2, 0, true, true, "", ""⟩).scroll_offset ≤ 2 ∧
      (2 : Nat) < (adjust_scroll_for_height 2 ⟨[anItem, anItem, anItem], 2, 0, true, true, "", ""⟩).scroll_offset + 2 :=
  ⟨(c1_reclamp_keeps_selected_visible 2 ⟨[anItem, anItem, anItem], 2, 0, true, true, "", ""⟩
      (by decide) (by decide)).2.1,
   (c1_reclamp_keeps_selected_visible 2 ⟨[anItem, anItem, anItem], 2, 0, true, true, "", ""⟩
      (by decide) (by decide)).2.2⟩

/-- C1, as stated (no precondition relating `selected` to the list length),
is false: with one entry, `selected = 2`, `scroll_offset = 0` and
`visible_items = 1`, the final clamp forces `scroll_offset = 0` and the
cursor index 2 is not inside `[0, 1)`. -/
theorem c1_counterexample :
    ¬ ((adjust_scroll_for_height 1 ⟨[anItem], 2, 0, true, true, "", ""⟩).scroll_offset ≤
          (adjust_scroll_for_height 1 ⟨[anItem], 2, 0, true, true, "", ""⟩).selected ∧
        (adjust_scroll_for_height 1 ⟨[anItem], 2, 0, true, true, "", ""⟩).selected <
          (adjust_scroll_for_height 1 ⟨[anItem], 2, 0, true, true, "", ""⟩).scroll_offset + 1) := by
  decide

/-- C2's minimality conjunct is false: with 20 entries, `selected = 5`,
`scroll_offset = 2`, `visible_items = 10`, the code keeps `scroll_offset = 2`
(the window already shows the cursor) while the minimal admissible value per
the spec's words is 0. -/
theorem c2_counterexample :
    (adjust_scroll_for_height 10 ⟨List.replicate 20 anItem, 5, 2, true, true, "", ""⟩).scroll_offset ≠
      specMinimalScroll 10 (List.replicate 20 anItem : List MenuItem).length 5 := by
  decide

/-- C2 (amended): for a non-empty entry list, `visible_items ≥ 1` and an
in-range cursor, after `adjust_scroll_for_height` the state satisfies
`0 ≤ selected < len`, `0 ≤ scroll_offset ≤ selected`,
`selected < scroll_offset + visible_items` and
`scroll_offset ≤ len - visible_items` (floored at 0) — but `scroll_offset`
is not in general the minimal such value (see `c2_counterexample`): it is
only lowered when needed to keep the cursor visible or to avoid scrolling
past the end. -/
theorem c2_scroll_invariant (v : Nat) (st : AppState)
    (hne : st.menu_items ≠ []) (hv : 1 ≤ v)
    (hsel : st.selected < st.menu_items.length) :
    (adjust_scroll_for_height v st).selected < (adjust_scroll_for_height v st).menu_items.length ∧
      (adjust_scroll_for_height v st).scroll_offset ≤ (adjust_scroll_for_height v st).selected ∧
      (adjust_scroll_for_height v st).selected < (adjust_scroll_for_height v st).scroll_offset + v ∧
      (adjust_scroll_for_height v st).scroll_offset ≤ st.menu_items.length - v := by
  have hv0 : v ≠ 0 := by omega
  rw [adjust_scroll_for_height_selected, adjust_scroll_for_height_menu]
  refine ⟨hsel, ?_, ?_, ?_⟩ <;>
    · unfold adjust_scroll_for_height
      rw [if_neg hv0]
      have := clampScroll_bounds v st.menu_items.length st.selected st.scroll_offset hv0 hsel
      simp only
      omega

/-- Witness for C2's amended theorem at a concrete in-range state. -/
theorem c2_witness :
    (adjust_scroll_for_height 10 ⟨List.replicate 20 anItem, 5, 2, true, true, "", ""⟩).scroll_offset ≤ 5 ∧
      (adjust_scroll_for_height 10 ⟨List.replicate 20 anItem, 5, 2, true, true, "", ""⟩).scroll_offset ≤ 10 :=
  ⟨(c2_scroll_invariant 10 ⟨List.replicate 20 anItem, 5, 2, true, true, "", ""⟩
      (by decide) (by decide) (by decide)).2.1,
   (c2_scroll_invariant 10 ⟨List.replicate 20 anItem, 5, 2, true, true, "", ""⟩
      (by decide) (by decide) (by decide)).2.2.2⟩

lemma move_down_selected (st : AppState) :
    (move_down st).selected =
      if st.selected < st.menu_items.length - 1 then st.selected + 1 else 0 := by
  unfold move_down
  split <;> rfl

lemma move_down_menu (st : AppState) : (move_down st).menu_items = st.menu_items := by
  unfold move_down
  split <;> rfl

lemma move_up_selected (st : AppState) :
    (move_up st).selected =
      if st.selected > 0 then st.selected - 1 else st.menu_items.length - 1 := by
  unfold move_up
  split <;> rfl

lemma move_down_iter_selected (len : Nat) (hlen : len ≠ 0) :
    ∀ (k : Nat) (st : AppState), st.menu_items.length = len → st.selected < len →
      (move_down^[k] st).menu_items.length = len ∧
        (move_down^[k] st).selected = (st.selected + k) % len := by
  intro k
  induction k with
  | zero =>
    intro st hm hs
    simpa [hm] using (Nat.mod_eq_of_lt hs).symm
  | succ n ih =>
    intro st hm hs
    rw [Function.iterate_succ_apply']
    obtain ⟨ihm, ihs⟩ := ih st hm hs
    have hlt : (st.selected + n) % len < len := Nat.mod_lt _ (by omega)
    have e0 : st.selected + (n + 1) = st.selected + n + 1 := by omega
    constructor
    · rw [move_down_menu, ihm]
    · rw [move_down_selected, ihm, ihs]
      rcases Nat.lt_or_ge ((st.selected + n) % len) (len - 1) with h | h
      · have hlt1 : (st.selected + n) % len + 1 < len := by omega
        rw [if_pos h, e0]
        conv_rhs => rw [← Nat.mod_add_mod]
        exact (Nat.mod_eq_of_lt hlt1).symm
      · have heq : (st.selected + n) % len = len - 1 := by omega
        rw [if_neg (by omega), e0, ← Nat.mod_add_mod, heq,
          show len - 1 + 1 = len by omega, Nat.mod_self]

/-- C3 (original statement is refuted by `c3_counterexample`; this is the
amended form): for a non-empty list and an in-range cursor, `move_down`
iterated `len` times restores `selected`; `move_up` at index 0 wraps to
`len - 1` and `move_down` at index `len - 1` wraps to 0; and on an empty
list the operations leave `selected` unchanged provided `selected = 0`
(which is the only cursor value the program ever pairs with an empty list —
for other values `move_down` resets the cursor to 0, see the
counterexample). -/
theorem c3_wraparound_cycle (st : AppState) :
    (st.selected < st.menu_items.length →
        (move_down^[st.menu_items.length] st).selected = st.selected) ∧
      (st.menu_items ≠ [] → st.selected = 0 →
        (move_up st).selected = st.menu_items.length - 1) ∧
      (st.menu_items ≠ [] → st.selected = st.menu_items.length - 1 →
        (move_down st).selected = 0) ∧
      (st.menu_items = [] → st.selected = 0 →
        (move_up st).selected = st.selected ∧ (move_down st).selected = st.selected) := by
  refine ⟨?_, ?_, ?_, ?_⟩
  · intro hs
    have hlen : st.menu_items.length ≠ 0 := by
      intro h
      omega
    have := (move_down_iter_selected st.menu_items.length hlen st.menu_items.length st rfl hs).2
    rw [this, Nat.add_mod_right]
    exact Nat.mod_eq_of_lt hs
  · intro _ h0
    rw [move_up_selected, h0]
    rfl
  · intro hne hend
    rw [move_down_selected, hend, if_neg (by omega)]
  · intro hemp h0
    constructor
    · rw [move_up_selected, h0, hemp]
      rfl
    · rw [move_down_selected, h0, hemp]
      rfl

/-- Witness for C3's amended theorem: a full cycle on a concrete 3-entry
list and the two wraparound facts. -/
theorem c3_witness :
    (move_down^[3] ⟨[anItem, anItem, anItem], 1, 0, true, true, "", ""⟩).selected = 1 ∧
      (move_up ⟨[anItem, anItem, anItem], 0, 0, true, true, "", ""⟩).selected = 2 :=
  ⟨(c3_wraparound_cycle ⟨[anItem, anItem, anItem], 1, 0, true, true, "", ""⟩).1 (by decide),
   (c3_wraparound_cycle ⟨[anItem, anItem, anItem], 0, 0, true, true, "", ""⟩).2.1
      (by decide) (by decide)⟩

/-- C3's empty-list conjunct, as stated, is false: on an empty list with
`selected = 1`, `move_down` is not a no-op on `selected` — it resets it
to 0. -/
theorem c3_counterexample :
    (move_down ⟨[], 1, 0, true, true, "", ""⟩).selected ≠
      (⟨[], 1, 0, true, true, "", ""⟩ : AppState).selected := by
  decide

/-- C4: `adjust_scroll_for_height` (the spec's `reclamp`) is idempotent —
calling it twice with the same `visible_items` yields the same state
(in particular the same `scroll_offset`) as calling it once. -/
theorem c4_reclamp_idempotent (v : Nat) (st : AppState) :
    adjust_scroll_for_height v (adjust_scroll_for_height v st) =
      adjust_scroll_for_height v st := by
  by_cases hv : v = 0
  · simp [adjust_scroll_for_height, hv]
  · cases st with
  | mk menu sel scr ke le cl cloc =>
    simp only [adjust_scroll_for_height, if_neg hv]
    simp only [AppState.mk.injEq, and_true, true_and]
    unfold clampScroll
    simp only [Nat.min_def]
    split_ifs <;> omega

/-- src/main.rs:155-184.  Indexing `menu_items[selected]` panics in Rust
when `selected` is out of range; the embedding uses `getD` and every
theorem about this function assumes `selected < menu_items.length`. -/

lemma available_locales_ne_nil (lines : List String) : get_available_locales lines ≠ [] := by
  simp only [get_available_locales]
  generalize (lines.map strTrim).filterMap
      (fun l => if l = "" then none else some (l, locale_code_to_display_name l)) = ls
  by_cases h : ls = []
  · rw [if_pos h]
    simp
  · rw [if_neg h]
    exact h

/-- C8: the locale → keyboard-layout table maps "pt_BR.UTF-8" to "br" and
"pt_PT.UTF-8" to "pt", and returns `none` for the bare "C" locale, for
every code without a `'_'` separator in its pre-`'.'` part, and for every
code whose language has no entry in the static table. -/
theorem c8_locale_layout_table :
    locale_to_keyboard_layout "pt_BR.UTF-8" = some "br" ∧
      locale_to_keyboard_layout "pt_PT.UTF-8" = some "pt" ∧
      locale_to_keyboard_layout "C" = none ∧
      (∀ s : String, splitOnceList '_' (langCountryOf s) = none →
        locale_to_keyboard_layout s = none) ∧
      (∀ (s : String) (langL countryL : List Char),
        splitOnceList '_' (langCountryOf s) = some (langL, countryL) →
        (⟨langL⟩ : String) ∉ tableLangs →
        locale_to_keyboard_layout s = none) := by
  refine ⟨by decide, by decide, by decide, ?_, ?_⟩
  · intro s h
    simp [locale_to_keyboard_layout, h]
  · intro s langL countryL h h2
    simp only [tableLangs, List.mem_cons, List.not_mem_nil, or_false, not_or] at h2
    obtain ⟨a1, a2, a3, a4, a5, a6, a7, a8, a9, a10, a11, a12, a13, a14, a15, a16, a17,
      a18, a19, a20, a21, a22, a23⟩ := h2
    unfold locale_to_keyboard_layout
    rw [h]
    dsimp only
    rw [if_neg a1, if_neg a2, if_neg a3, if_neg a4, if_neg a5, if_neg a6, if_neg a7,
      if_neg a8, if_neg a9, if_neg a10, if_neg a11, if_neg a12, if_neg a13, if_neg a14,
      if_neg a15, if_neg a16, if_neg a17, if_neg a18, if_neg a19, if_neg a20, if_neg a21,
      if_neg a22, if_neg a23]

/-- Witness for C8's universally quantified parts: a tabled-language miss
and a separator miss. -/
theorem c8_witness :
    locale_to_keyboard_layout "xx_XX.UTF-8" = none ∧
      locale_to_keyboard_layout "POSIX" = none :=
  ⟨c8_locale_layout_table.2.2.2.2 "xx_XX.UTF-8" "xx".data "XX".data (by decide) (by decide),
   c8_locale_layout_table.2.2.2.1 "POSIX" (by decide)⟩

/-- C9: for every available-locale input (the fallback makes the fetched
locale list non-empty) and every state, the rebuilt entry list is non-empty
and contains the System Locales header entry. -/
theorem c9_menu_never_empty (lines : List String) (st : AppState) :
    get_available_locales lines ≠ [] ∧
      build_menu lines st ≠ [] ∧
      locHeaderItem st ∈ build_menu lines st := by
  have hmem : locHeaderItem st ∈ build_menu lines st := by
    unfold build_menu build_menu_core
    exact List.mem_append_right _ (List.mem_cons_self _ _)
  exact ⟨available_locales_ne_nil lines, List.ne_nil_of_mem hmem, hmem⟩

/-- C10: `execute_selected` never returns `Ok(true)`: the empty-list path
and the header path return `Ok(false)`, and the leaf path maps every
successful action result to `false`. -/
theorem c10_execute_never_ok_true (oracle : Action → Except String Unit)
    (lines : List String) (layoutNow localeNow : String) (st : AppState) :
    (execute_selected oracle lines layoutNow localeNow st).2 ≠ Except.ok true := by
  simp only [execute_selected]
  split
  · simp
  · split
    · simp
    · cases ho : oracle ((st.menu_items.getD st.selected default).action) <;>
        simp [ho, Except.map]

/-- C7: activating a leaf entry (one whose label names neither group)
invokes its bound action; regardless of the result, the status snapshot is
refreshed and the entry list rebuilt, the cursor's numeric index and the
scroll offset are unchanged, and the action's error is propagated to the
caller (mapped onto `Ok(false)` on success). -/
theorem c7_leaf_execute (oracle : Action → Except String Unit) (lines : List String)
    (layoutNow localeNow : String) (st : AppState)
    (hsel : st.selected < st.menu_items.length)
    (hkb : strContains (st.menu_items.getD st.selected default).label "Keyboard Layouts" = false)
    (hloc : strContains (st.menu_items.getD st.selected default).label "System Locales" = false) :
    (execute_selected oracle lines layoutNow localeNow st).1.selected = st.selected ∧
      (execute_selected oracle lines layoutNow localeNow st).1.scroll_offset = st.scroll_offset ∧
      (execute_selected oracle lines layoutNow localeNow st).1.current_layout = layoutNow ∧
      (execute_selected oracle lines layoutNow localeNow st).1.current_locale = localeNow ∧
      (execute_selected oracle lines layoutNow localeNow st).1.menu_items =
        build_menu lines (refresh_status layoutNow localeNow st) ∧
      (execute_selected oracle lines layoutNow localeNow st).2 =
        (oracle (st.menu_items.getD st.selected default).action).map (fun _ => false) ∧
      (∀ e, oracle (st.menu_items.getD st.selected default).action = Except.error e →
        (execute_selected oracle lines layoutNow localeNow st).2 = Except.error e) := by
  have hne : st.menu_items ≠ [] := by
    intro h
    rw [h] at hsel
    simp at hsel
  have he : st.menu_items.isEmpty = false := by simp [hne]
  have key : execute_selected oracle lines layoutNow localeNow st =
      ({ refresh_status layoutNow localeNow st with
          menu_items := build_menu lines (refresh_status layoutNow localeNow st) },
        (oracle (st.menu_items.getD st.selected default).action).map fun _ => false) := by
    simp only [execute_selected, he, hkb, hloc, Bool.or_self, Bool.false_eq_true, if_false]
  rw [key]
  refine ⟨rfl, rfl, rfl, rfl, rfl, rfl, ?_⟩
  intro e hee
  rw [hee]
  rfl

/-- Witness for C7 at a concrete leaf with a failing action. -/
theorem c7_witness :
    (execute_selected (fun _ => Except.error "boom") ["en_US.UTF-8"] "us" "en_US.UTF-8"
        ⟨[⟨"  English (US)", "en_US.UTF-8", Action.set_locale "en_US.UTF-8"⟩], 0, 0,
          true, true, "", ""⟩).1.selected = 0 ∧
      (execute_selected (fun _ => Except.error "boom") ["en_US.UTF-8"] "us" "en_US.UTF-8"
          ⟨[⟨"  English (US)", "en_US.UTF-8", Action.set_locale "en_US.UTF-8"⟩], 0, 0,
            true, true, "", ""⟩).2 = Except.error "boom" :=
  ⟨(c7_leaf_execute (fun _ => Except.error "boom") ["en_US.UTF-8"] "us" "en_US.UTF-8"
      ⟨[⟨"  English (US)", "en_US.UTF-8", Action.set_locale "en_US.UTF-8"⟩], 0, 0,
        true, true, "", ""⟩ (by decide) (by decide) (by decide)).1,
   (c7_leaf_execute (fun _ => Except.error "boom") ["en_US.UTF-8"] "us" "en_US.UTF-8"
      ⟨[⟨"  English (US)", "en_US.UTF-8", Action.set_locale "en_US.UTF-8"⟩], 0, 0,
        true, true, "", ""⟩ (by decide) (by decide) (by decide)).2.2.2.2.2.2 "boom" rfl⟩

/-- C6, as stated, is false for the locale group: with an empty locale item
list the rebuild still emits the System Locales header entry
(src/main.rs:83-88 is unconditional). -/
theorem c6_counterexample :
    locHeaderItem ⟨[], 0, 0, true, true, "", ""⟩ ∈
      build_menu_core [] [] ⟨[], 0, 0, true, true, "", ""⟩ := by
  decide

/-- C6 (amended): the keyboard-layout group with zero available items is
omitted entirely — when the derived layout list is empty no keyboard header
entry (a no-op entry whose label names the group) appears in the rebuilt
list — while the System Locales header is emitted unconditionally; the
locale group, however, never has zero available items because the locale
fetch falls back to a fixed two-entry list. -/
theorem c6_empty_group_headers (lines : List String) (st : AppState)
    (h : get_available_keyboard_layouts lines = []) :
    (∀ m ∈ build_menu lines st,
        ¬(m.action = Action.nop ∧ strContains m.label "Keyboard Layouts" = true)) ∧
      get_available_locales lines ≠ [] := by
  refine ⟨?_, available_locales_ne_nil lines⟩
  intro m hm
  rw [build_menu, h] at hm
  simp only [build_menu_core, List.isEmpty_nil, if_true, List.nil_append, List.mem_cons] at hm
  rcases hm with hm | hm
  · subst hm
    rintro ⟨-, hc⟩
    cases hl : st.locale_section_expanded <;>
      · simp only [locHeaderItem, hl] at hc
        exact absurd hc (by decide)
  · rcases hle : st.locale_section_expanded with _ | _ <;> rw [hle] at hm
    · simp at hm
    · simp only [if_true, locLeafItems, List.mem_map] at hm
      obtain ⟨lc, -, rfl⟩ := hm
      rintro ⟨ha, -⟩
      exact absurd ha (by simp)

/-- Witness for C6's amended theorem: a locale list whose only language is
not in the table yields no keyboard section at all. -/
theorem c6_witness :
    ¬(((build_menu ["xx_XX.UTF-8"] ⟨[], 0, 0, true, true, "", ""⟩).getD 0 default).action =
          Action.nop ∧
        strContains ((build_menu ["xx_XX.UTF-8"] ⟨[], 0, 0, true, true, "", ""⟩).getD 0
            default).label "Keyboard Layouts" = true) :=
  (c6_empty_group_headers ["xx_XX.UTF-8"] ⟨[], 0, 0, true, true, "", ""⟩ (by decide)).1
    ((build_menu ["xx_XX.UTF-8"] ⟨[], 0, 0, true, true, "", ""⟩).getD 0 default) (by decide)

lemma listStartsWith_mem : ∀ (l p : List Char), listStartsWith l p = true → ∀ c ∈ p, c ∈ l := by
  intro l p
  induction p generalizing l with
  | nil =>
    intro _ c hc
    simp at hc
  | cons x xs ih =>
    intro h c hc
    cases l with
    | nil => simp [listStartsWith] at h
    | cons a as =>
      simp only [listStartsWith, Bool.and_eq_true, beq_iff_eq] at h
      obtain ⟨rfl, h2⟩ := h
      rcases List.mem_cons.mp hc with rfl | hc2
      · exact List.mem_cons_self _ _
      · exact List.mem_cons_of_mem _ (ih as h2 c hc2)

lemma listContains_mem : ∀ (hay pat : List Char), listContains hay pat = true → ∀ c ∈ pat, c ∈ hay := by
  intro hay
  induction hay with
  | nil =>
    intro pat h c hc
    simp only [listContains, List.isEmpty_eq_true] at h
    subst h
    simp at hc
  | cons a as ih =>
    intro pat h c hc
    simp only [listContains, Bool.or_eq_true] at h
    rcases h with h | h
    · exact listStartsWith_mem _ _ h c hc
    · exact List.mem_cons_of_mem _ (ih pat h c hc)

lemma listContains_eq_false (c : Char) {hay pat : List Char}
    (hc : c ∈ pat) (hn : c ∉ hay) : listContains hay pat = false := by
  cases h : listContains hay pat
  · rfl
  · exact absurd (listContains_mem hay pat h c hc) hn

lemma char_toNat_ofNat_valid (n : Nat) (h : n.isValidChar) : (Char.ofNat n).toNat = n := by
  rw [Char.ofNat, dif_pos h]
  rfl

lemma toUpper_ne_y (c : Char) : Char.toUpper c ≠ 'y' := by
  intro he
  simp only [Char.toUpper] at he
  by_cases h : c.toNat ≥ 97 ∧ c.toNat ≤ 122
  · rw [if_pos h] at he
    have hv : (c.toNat - 32).isValidChar := Or.inl (by omega)
    have h2 := congrArg Char.toNat he
    rw [char_toNat_ofNat_valid _ hv] at h2
    have hy : Char.toNat 'y' = 121 := rfl
    rw [hy] at h2
    omega
  · rw [if_neg h] at he
    refine h ?_
    rw [he]
    exact ⟨by decide, by decide⟩

lemma y_not_mem_map_toUpper (l : List Char) : 'y' ∉ l.map Char.toUpper := by
  intro hm
  rcases List.mem_map.mp hm with ⟨c, -, hc⟩
  exact toUpper_ne_y c hc

lemma safeName_of_no_y (n : String) (h : 'y' ∉ n.data) : safeName n := by
  refine ⟨?_, ?_, ?_, ?_⟩ <;>
    · unfold strContains
      refine listContains_eq_false 'y' (by decide) ?_
      rw [String.data_append]
      intro hy
      rcases List.mem_append.mp hy with h1 | h1
      · exact absurd h1 (by decide)
      · exact h h1

lemma safeName_upper_pair (langL countryL : List Char) :
    safeName (upperStr ⟨langL⟩ ++ " (" ++ upperStr ⟨countryL⟩ ++ ")") := by
  apply safeName_of_no_y
  intro hy
  simp only [String.data_append, List.mem_append] at hy
  rcases hy with ((h | h) | h) | h
  · exact y_not_mem_map_toUpper _ h
  · exact absurd h (by decide)
  · exact y_not_mem_map_toUpper _ h
  · exact absurd h (by decide)

lemma safeName_upper_single (l : List Char) : safeName (upperStr ⟨l⟩) := by
  apply safeName_of_no_y
  intro hy
  exact y_not_mem_map_toUpper _ hy

lemma safeName_display (code : String) : safeName (locale_code_to_display_name code) := by
  unfold locale_code_to_display_name
  by_cases h0 : code = "C" ∨ code = "C.UTF-8"
  · rw [if_pos h0]
    decide
  rw [if_neg h0]
  by_cases h1 : strStartsWith code "en_US" = true
  · rw [if_pos h1]
    decide
  rw [if_neg h1]
  by_cases h2 : strStartsWith code "en_GB" = true
  · rw [if_pos h2]
    decide
  rw [if_neg h2]
  by_cases h3 : strStartsWith code "da_DK" = true
  · rw [if_pos h3]
    decide
  rw [if_neg h3]
  by_cases h4 : strStartsWith code "de_DE" = true
  · rw [if_pos h4]
    decide
  rw [if_neg h4]
  by_cases h5 : strStartsWith code "es_US" = true
  · rw [if_pos h5]
    decide
  rw [if_neg h5]
  by_cases h6 : strStartsWith code "es_ES" = true
  · rw [if_pos h6]
    decide
  rw [if_neg h6]
  by_cases h7 : strStartsWith code "fr_FR" = true
  · rw [if_pos h7]
    decide
  rw [if_neg h7]
  by_cases h8 : strStartsWith code "zh_CN" = true
  · rw [if_pos h8]
    decide
  rw [if_neg h8]
  by_cases h9 : strStartsWith code "zh_TW" = true
  · rw [if_pos h9]
    decide
  rw [if_neg h9]
  by_cases h10 : strStartsWith code "ja_JP" = true
  · rw [if_pos h10]
    decide
  rw [if_neg h10]
  by_cases h11 : strStartsWith code "ko_KR" = true
  · rw [if_pos h11]
    decide
  rw [if_neg h11]
  by_cases h12 : strStartsWith code "ru_RU" = true
  · rw [if_pos h12]
    decide
  rw [if_neg h12]
  by_cases h13 : strStartsWith code "it_IT" = true
  · rw [if_pos h13]
    decide
  rw [if_neg h13]
  by_cases h14 : strStartsWith code "pt_BR" = true
  · rw [if_pos h14]
    decide
  rw [if_neg h14]
  by_cases h15 : strStartsWith code "pt_PT" = true
  · rw [if_pos h15]
    decide
  rw [if_neg h15]
  by_cases h16 : strStartsWith code "nl_NL" = true
  · rw [if_pos h16]
    decide
  rw [if_neg h16]
  by_cases h17 : strStartsWith code "sv_SE" = true
  · rw [if_pos h17]
    decide
  rw [if_neg h17]
  by_cases h18 : strStartsWith code "no_NO" = true
  · rw [if_pos h18]
    decide
  rw [if_neg h18]
  by_cases h19 : strStartsWith code "fi_FI" = true
  · rw [if_pos h19]
    decide
  rw [if_neg h19]
  by_cases h20 : strStartsWith code "pl_PL" = true
  · rw [if_pos h20]
    decide
  rw [if_neg h20]
  by_cases h21 : strStartsWith code "cs_CZ" = true
  · rw [if_pos h21]
    decide
  rw [if_neg h21]
  by_cases h22 : strStartsWith code "hu_HU" = true
  · rw [if_pos h22]
    decide
  rw [if_neg h22]
  by_cases h23 : strStartsWith code "tr_TR" = true
  · rw [if_pos h23]
    decide
  rw [if_neg h23]
  by_cases h24 : strStartsWith code "ar_SA" = true
  · rw [if_pos h24]
    decide
  rw [if_neg h24]
  by_cases h25 : strStartsWith code "hi_IN" = true
  · rw [if_pos h25]
    decide
  rw [if_neg h25]
  by_cases h26 : strStartsWith code "th_TH" = true
  · rw [if_pos h26]
    decide
  rw [if_neg h26]
  by_cases h27 : strStartsWith code "vi_VN" = true
  · rw [if_pos h27]
    decide
  rw [if_neg h27]
  split
  · exact safeName_upper_pair _ _
  · exact safeName_upper_single _

lemma mem_insertByKey {x y : String × String} {l : List (String × String)}
    (h : y ∈ insertByKey x l) : y = x ∨ y ∈ l := by
  induction l with
  | nil => simpa [insertByKey] using h
  | cons a t ih =>
    unfold insertByKey at h
    by_cases ha : a.1 < x.1
    · rw [if_pos ha] at h
      rcases List.mem_cons.mp h with rfl | h2
      · exact Or.inr (List.mem_cons_self _ _)
      · rcases ih h2 with h3 | h3
        · exact Or.inl h3
        · exact Or.inr (List.mem_cons_of_mem _ h3)
    · rw [if_neg ha] at h
      rcases List.mem_cons.mp h with rfl | h2
      · exact Or.inl rfl
      · exact Or.inr h2

lemma mem_sortByKey {y : String × String} {l : List (String × String)}
    (h : y ∈ sortByKey l) : y ∈ l := by
  induction l with
  | nil => simpa [sortByKey] using h
  | cons x t ih =>
    unfold sortByKey at h
    rcases mem_insertByKey h with rfl | h2
    · exact List.mem_cons_self _ _
    · exact List.mem_cons_of_mem _ (ih h2)

lemma mem_dedupByFirstAux {y : String × String} :
    ∀ (prev : String) (l : List (String × String)), y ∈ dedupByFirstAux prev l → y ∈ l := by
  intro prev l
  induction l generalizing prev with
  | nil => simp [dedupByFirstAux]
  | cons p rest ih =>
    intro h
    unfold dedupByFirstAux at h
    by_cases hp : p.1 = prev
    · rw [if_pos hp] at h
      exact List.mem_cons_of_mem _ (ih prev h)
    · rw [if_neg hp] at h
      rcases List.mem_cons.mp h with rfl | h2
      · exact List.mem_cons_self _ _
      · exact List.mem_cons_of_mem _ (ih p.1 h2)

lemma mem_dedupByFirst {y : String × String} {l : List (String × String)}
    (h : y ∈ dedupByFirst l) : y ∈ l := by
  cases l with
  | nil => simpa [dedupByFirst] using h
  | cons p rest =>
    unfold dedupByFirst at h
    rcases List.mem_cons.mp h with rfl | h2
    · exact List.mem_cons_self _ _
    · exact List.mem_cons_of_mem _ (mem_dedupByFirstAux p.1 rest h2)

lemma safeName_available (lines : List String) :
    ∀ p ∈ get_available_locales lines, safeName p.2 := by
  intro p hp
  simp only [get_available_locales] at hp
  split at hp
  · rcases List.mem_cons.mp hp with rfl | hp2
    · decide
    · rcases List.mem_cons.mp hp2 with rfl | hp3
      · decide
      · simp at hp3
  · rcases List.mem_filterMap.mp hp with ⟨a, -, hfa⟩
    by_cases hae : a = ""
    · rw [if_pos hae] at hfa
      cases hfa
    · rw [if_neg hae] at hfa
      obtain rfl := Option.some.inj hfa
      exact safeName_display a

lemma safeName_layouts (lines : List String) :
    ∀ p ∈ get_available_keyboard_layouts lines, safeName p.2 := by
  intro p hp
  simp only [get_available_keyboard_layouts] at hp
  have hp2 := mem_sortByKey (mem_dedupByFirst hp)
  rcases List.mem_filterMap.mp hp2 with ⟨lc, hlc, hglc⟩
  cases hl : locale_to_keyboard_layout lc.1 with
  | none =>
    rw [hl] at hglc
    cases hglc
  | some code =>
    rw [hl] at hglc
    obtain rfl := Option.some.inj hglc
    exact safeName_available lines lc hlc

lemma findIdx_middle_eq {α : Type} (p : α → Bool) (l1 l2 : List α) (y : α)
    (h : ∀ x ∈ l1, p x = false) (hy : p y = true) :
    (l1 ++ y :: l2).findIdx? p = some l1.length := by
  induction l1 with
  | nil => simp [hy]
  | cons a t ih =>
    have ha : p a = false := h a (List.mem_cons_self a t)
    simp only [List.cons_append, List.findIdx?_cons, ha, Bool.false_eq_true, if_false]
    rw [List.findIdx?_succ, ih (fun x hx => h x (List.mem_cons_of_mem _ hx))]
    simp

lemma getD_append_length {α : Type} [Inhabited α] (l1 l2 : List α) (y d : α) :
    (l1 ++ y :: l2).getD l1.length d = y := by
  induction l1 with
  | nil => rfl
  | cons a t ih => simpa using ih

lemma kbHeader_has_kb (st : AppState) :
    strContains (kbHeaderItem st).label "Keyboard Layouts" = true := by
  cases hk : st.keyboard_section_expanded <;> simp only [kbHeaderItem, hk] <;> decide

lemma kbHeader_not_loc (st : AppState) :
    strContains (kbHeaderItem st).label "System Locales" = false := by
  cases hk : st.keyboard_section_expanded <;> simp only [kbHeaderItem, hk] <;> decide

lemma locHeader_has_loc (st : AppState) :
    strContains (locHeaderItem st).label "System Locales" = true := by
  cases hl : st.locale_section_expanded <;> simp only [locHeaderItem, hl] <;> decide

lemma kbLeaf_not_loc (lines : List String) (st : AppState) :
    ∀ m ∈ kbLeafItems (get_available_keyboard_layouts lines) st,
      strContains m.label "System Locales" = false := by
  intro m hm
  simp only [kbLeafItems, List.mem_map] at hm
  obtain ⟨lc, hlc, rfl⟩ := hm
  have hs := safeName_layouts lines lc hlc
  by_cases hcur : lc.1 = st.current_layout
  · show strContains ((if lc.1 = st.current_layout then "● " else "  ") ++ lc.2)
      "System Locales" = false
    rw [if_pos hcur]
    exact hs.2.2.1
  · show strContains ((if lc.1 = st.current_layout then "● " else "  ") ++ lc.2)
      "System Locales" = false
    rw [if_neg hcur]
    exact hs.2.2.2

lemma build_menu_eq (lines : List String) (st : AppState) :
    build_menu lines st =
      (if (get_available_keyboard_layouts lines).isEmpty then []
       else kbHeaderItem st ::
         (if st.keyboard_section_expanded then
            kbLeafItems (get_available_keyboard_layouts lines) st
          else [])) ++
      (locHeaderItem st ::
        (if st.locale_section_expanded then
           locLeafItems (get_available_locales lines) st
         else [])) := rfl

lemma kbpart_length (lines : List String) (st : AppState) :
    (if (get_available_keyboard_layouts lines).isEmpty then ([] : List MenuItem)
     else kbHeaderItem st ::
       (if st.keyboard_section_expanded then
          kbLeafItems (get_available_keyboard_layouts lines) st
        else [])).length =
    (if (get_available_keyboard_layouts lines).isEmpty then 0
     else 1 + (if st.keyboard_section_expanded then
        (get_available_keyboard_layouts lines).length else 0)) := by
  by_cases hak : (get_available_keyboard_layouts lines).isEmpty
  · rw [if_pos hak, if_pos hak]
    rfl
  · rw [if_neg hak, if_neg hak]
    cases hk : st.keyboard_section_expanded <;> simp [hk, kbLeafItems, Nat.add_comm]

lemma findIdx_loc (lines : List String) (st : AppState) :
    (build_menu lines st).findIdx? (fun m => strContains m.label "System Locales") =
      some (if (get_available_keyboard_layouts lines).isEmpty then 0
        else 1 + (if st.keyboard_section_expanded then
          (get_available_keyboard_layouts lines).length else 0)) := by
  rw [build_menu_eq]
  by_cases hak : (get_available_keyboard_layouts lines).isEmpty
  · rw [if_pos hak, if_pos hak]
    simp [locHeader_has_loc]
  · rw [if_neg hak, if_neg hak, List.cons_append]
    have hall : ∀ x ∈ (if st.keyboard_section_expanded then
        kbLeafItems (get_available_keyboard_layouts lines) st else []),
        (fun m => strContains m.label "System Locales") x = false := by
      intro x hx
      by_cases hk : st.keyboard_section_expanded
      · rw [if_pos hk] at hx
        exact kbLeaf_not_loc lines st x hx
      · rw [if_neg hk] at hx
        simp at hx
    have hmid := findIdx_middle_eq (fun m => strContains m.label "System Locales") _
      (if st.locale_section_expanded then locLeafItems (get_available_locales lines) st else [])
      (locHeaderItem st) hall (locHeader_has_loc st)
    simp only [List.findIdx?_cons, kbHeader_not_loc, Bool.false_eq_true, if_false]
    rw [List.findIdx?_succ, hmid]
    cases hk : st.keyboard_section_expanded <;>
      simp [hk, kbLeafItems, Nat.add_comm]

lemma findIdx_kb (lines : List String) (st : AppState)
    (hak : (get_available_keyboard_layouts lines).isEmpty = false) :
    (build_menu lines st).findIdx? (fun m => strContains m.label "Keyboard Layouts") =
      some 0 := by
  rw [build_menu_eq, hak]
  simp only [Bool.false_eq_true, if_false, List.cons_append, List.findIdx?_cons,
    kbHeader_has_kb, if_true]

/-- C5: activating a group-header entry (via `toggle_section`, which is the
path `execute_selected` takes on headers) flips exactly that group's
`expanded` flag, rebuilds the entry list with the flipped flag, and
relocates `selected` to the index of that same group's header in the new
list (index 0 for the keyboard header; for the System Locales header the
index just past the keyboard section, which is positive whenever a keyboard
section exists and is never past the end of the shorter list). -/
theorem c5_header_toggle_relocates (lines : List String) (st : AppState)
    (hsel : st.selected < st.menu_items.length) :
    (((st.menu_items.getD st.selected default).label = "▼ Keyboard Layouts" ∨
        (st.menu_items.getD st.selected default).label = "▶ Keyboard Layouts") →
      (get_available_keyboard_layouts lines).isEmpty = false →
      (toggle_section lines st).keyboard_section_expanded = !st.keyboard_section_expanded ∧
        (toggle_section lines st).locale_section_expanded = st.locale_section_expanded ∧
        (toggle_section lines st).menu_items =
          build_menu lines { st with keyboard_section_expanded := !st.keyboard_section_expanded } ∧
        (toggle_section lines st).selected = 0 ∧
        (toggle_section lines st).menu_items.getD (toggle_section lines st).selected default =
          kbHeaderItem { st with keyboard_section_expanded := !st.keyboard_section_expanded } ∧
        (toggle_section lines st).selected < (toggle_section lines st).menu_items.length) ∧
      (((st.menu_items.getD st.selected default).label = "▼ System Locales" ∨
          (st.menu_items.getD st.selected default).label = "▶ System Locales") →
        (toggle_section lines st).locale_section_expanded = !st.locale_section_expanded ∧
          (toggle_section lines st).keyboard_section_expanded = st.keyboard_section_expanded ∧
          (toggle_section lines st).menu_items =
            build_menu lines { st with locale_section_expanded := !st.locale_section_expanded } ∧
          (toggle_section lines st).selected =
            (if (get_available_keyboard_layouts lines).isEmpty then 0
             else 1 + (if st.keyboard_section_expanded then
                (get_available_keyboard_layouts lines).length else 0)) ∧
          (toggle_section lines st).menu_items.getD (toggle_section lines st).selected default =
            locHeaderItem { st with locale_section_expanded := !st.locale_section_expanded } ∧
          (toggle_section lines st).selected < (toggle_section lines st).menu_items.length ∧
          ((get_available_keyboard_layouts lines).isEmpty = false →
            0 < (toggle_section lines st).selected)) := by
  have hne : st.menu_items.isEmpty = false := by
    rw [List.isEmpty_eq_false]
    exact List.length_pos.mp (Nat.lt_of_le_of_lt (Nat.zero_le _) hsel)
  constructor
  · intro hlab hak
    have hkbT : strContains (st.menu_items.getD st.selected default).label
        "Keyboard Layouts" = true := by
      rcases hlab with h | h <;> rw [h] <;> decide
    have htog : toggle_section lines st =
        adjust_scroll
          { st with
            keyboard_section_expanded := !st.keyboard_section_expanded,
            menu_items :=
              build_menu lines { st with keyboard_section_expanded := !st.keyboard_section_expanded },
            selected := 0 } := by
      simp only [toggle_section, hne, Bool.false_eq_true, if_false, hkbT, if_true,
        eq_self_iff_true, findIdx_kb lines _ hak]
    rw [htog]
    refine ⟨rfl, rfl, rfl, rfl, ?_, ?_⟩
    · show (build_menu lines
          { st with keyboard_section_expanded := !st.keyboard_section_expanded }).getD 0 default =
        kbHeaderItem { st with keyboard_section_expanded := !st.keyboard_section_expanded }
      rw [build_menu_eq, hak]
      simp
    · show 0 < (build_menu lines
          { st with keyboard_section_expanded := !st.keyboard_section_expanded }).length
      rw [build_menu_eq, hak]
      simp
  · intro hlab
    have hkbF : strContains (st.menu_items.getD st.selected default).label
        "Keyboard Layouts" = false := by
      rcases hlab with h | h <;> rw [h] <;> decide
    have hlocT : strContains (st.menu_items.getD st.selected default).label
        "System Locales" = true := by
      rcases hlab with h | h <;> rw [h] <;> decide
    have htog : toggle_section lines st =
        adjust_scroll
          { st with
            locale_section_expanded := !st.locale_section_expanded,
            menu_items :=
              build_menu lines { st with locale_section_expanded := !st.locale_section_expanded },
            selected :=
              (if (get_available_keyboard_layouts lines).isEmpty then 0
               else 1 + (if st.keyboard_section_expanded then
                  (get_available_keyboard_layouts lines).length else 0)) } := by
      simp only [toggle_section, hne, Bool.false_eq_true, if_false, hkbF, hlocT, if_true,
        eq_self_iff_true,
        findIdx_loc lines { st with locale_section_expanded := !st.locale_section_expanded }]
    rw [htog]
    refine ⟨rfl, rfl, rfl, rfl, ?_, ?_, ?_⟩
    · show (build_menu lines
          { st with locale_section_expanded := !st.locale_section_expanded }).getD
          (if (get_available_keyboard_layouts lines).isEmpty then 0
           else 1 + (if st.keyboard_section_expanded then
              (get_available_keyboard_layouts lines).length else 0)) default =
        locHeaderItem { st with locale_section_expanded := !st.locale_section_expanded }
      rw [build_menu_eq,
        ← kbpart_length lines { st with locale_section_expanded := !st.locale_section_expanded }]
      exact getD_append_length _ _ _ _
    · show (if (get_available_keyboard_layouts lines).isEmpty then 0
           else 1 + (if st.keyboard_section_expanded then
              (get_available_keyboard_layouts lines).length else 0)) <
        (build_menu lines { st with locale_section_expanded := !st.locale_section_expanded }).length
      rw [build_menu_eq, List.length_append,
        ← kbpart_length lines { st with locale_section_expanded := !st.locale_section_expanded },
        List.length_cons]
      omega
    · intro hak
      show 0 < (if (get_available_keyboard_layouts lines).isEmpty then 0
           else 1 + (if st.keyboard_section_expanded then
              (get_available_keyboard_layouts lines).length else 0))
      rw [hak]
      simp

/-- Witness for C5: collapsing the System Locales section from its header
keeps the cursor on that header's new index — positive and in range. -/
theorem c5_witness :
    0 < (toggle_section ["en_US.UTF-8"] ⟨c5Menu, 2, 0, true, true, "", ""⟩).selected ∧
      (toggle_section ["en_US.UTF-8"] ⟨c5Menu, 2, 0, true, true, "", ""⟩).selected <
        (toggle_section ["en_US.UTF-8"] ⟨c5Menu, 2, 0, true, true, "", ""⟩).menu_items.length :=
  have h := (c5_header_toggle_relocates ["en_US.UTF-8"] ⟨c5Menu, 2, 0, true, true, "", ""⟩
      (by decide)).2 (Or.inl (by decide))
  ⟨h.2.2.2.2.2.2 (by decide), h.2.2.2.2.2.1⟩

end Levocale
